import Mathlib

/-!
Verification of the doks document-ingestion pipeline.

This file gives a shallow embedding, in Lean, of the parts of the program that
the specification talks about:

* the data model (`Document`, `RepositoryInfo`) from `src/model.rs` and
  `src/sources/gh.rs`;
* the FileSystem document source (`src/sources/fs.rs`): walking root paths,
  filtering by include/exclude regexes, and producing one `Document` per
  accepted file;
* the batching stream operator `StreamUtils::batched` (`src/utils/mod.rs`);
* the channel stream bridge `channel_stream` (`src/utils/streams.rs`);
* the Git-repository source `GithubSource::fetch` (`src/sources/gh.rs`);
* the index subcommand of the CLI driver (`src/cli/mod.rs`);
* the tantivy search facade (`src/search/tantivy_impl.rs`).

Modelling conventions:

* A regex is modelled by its `is_match` function, `String → Bool`.
* An `anyhow::Error` is modelled as its chain of context messages, outermost
  first (`Err := List String`); `Context::context` pushes a message.
* A fallible item of a stream (`anyhow::Result<T>`) is `Except Err T`.
* Asynchronous streams are modelled by the list of items a consumer that
  drains the stream to completion observes, in order.  Channel backpressure
  and task scheduling only affect timing, not this sequence of items, because
  every send into the bounded channels is awaited in program order.
* Filesystem walks are modelled by a function `walk : String → List FileEntry`
  giving, for a root path, the regular files found under it in walk order.
-/

namespace Doks

/-- An `anyhow::Error`, modelled as its chain of context messages, outermost
context first. -/
abbrev Err := List String

/-- `anyhow::Context::context(msg)`: wrap an error with an outer context
message. -/
def withContext (msg : String) (e : Err) : Err := msg :: e

/-- The `Document` record from `src/model.rs`.  `metadata` is a
`HashMap<String, String>`, modelled as an association list (all code paths in
scope construct it empty). -/
structure Document where
  id : String
  source : String
  title : String
  link : String
  content : String
  metadata : List (String × String)
deriving DecidableEq, Repr

/-- One regular file met during a filesystem walk: its full path (as
`file.path().to_string_lossy()`), its base name (`file.file_name()`), and its
text content (`tokio::fs::read_to_string`). -/
structure FileEntry where
  path : String
  fileName : String
  content : String
deriving DecidableEq, Repr

/-- The path filter of `FileSystemDocumentSourceStream::new`
(`src/sources/fs.rs` lines 48-56): the file is kept iff every include regex
matches the full path and no exclude regex matches it. -/
def matchesFilters (includes excludes : List (String → Bool)) (path : String) : Bool :=
  (includes.all fun r => r path) && (excludes.all fun r => !(r path))

/-- The `Document` yielded for an accepted file (`src/sources/fs.rs` lines
60-67): `id` and `link` are the full path, `title` is the base name, `content`
is the file text, `metadata` is empty. -/
def mkDocument (source_id : String) (f : FileEntry) : Document :=
  { id := f.path
    source := source_id
    title := f.fileName
    link := f.path
    content := f.content
    metadata := [] }

/-- The `FileSystemDocumentSource` struct from `src/sources/fs.rs`, with each
regex modelled by its `is_match` function. -/
structure FileSystemDocumentSource where
  source_id : String
  paths : List String
  includes : List (String → Bool)
  excludes : List (String → Bool)

/-- `FileSystemDocumentSourceStream::new` / `DocumentSource::fetch` for the
filesystem source (`src/sources/fs.rs` lines 43-76): walk each root path in
order, keep the files passing the include/exclude filter, and yield one
`Document` per kept file.  `walk` models the `async_walkdir::WalkDir`
traversal of one root; the error-free walk is modelled (walk and read errors
terminate the stream and are outside the claims about yielded documents). -/
def FileSystemDocumentSource.fetch (s : FileSystemDocumentSource)
    (walk : String → List FileEntry) : List Document :=
  s.paths.flatMap fun p =>
    (walk p).filterMap fun f =>
      if matchesFilters s.includes s.excludes f.path then
        some (mkDocument s.source_id f)
      else none

/-- Accumulator loop of `StreamUtils::batched` (`src/utils/mod.rs` lines
25-44): push each item onto the current batch; when the batch length reaches
`size`, send it and start a new one; at end of input send the final batch if
it is non-empty. -/
def batchedGo (size : Nat) : List α → List α → List (List α)
  | batch, [] => if batch.isEmpty then [] else [batch]
  | batch, x :: xs =>
    if size ≤ (batch ++ [x]).length then (batch ++ [x]) :: batchedGo size [] xs
    else batchedGo size (batch ++ [x]) xs

/-- `StreamUtils::batched` (`src/utils/mod.rs`): the sequence of groups the
consumer of the returned `ReceiverStream` observes, for a source stream whose
items are `xs`. -/
def batched (size : Nat) (xs : List α) : List (List α) :=
  batchedGo size [] xs

/-- Concatenating the groups produced from any accumulator state recovers the
pending batch followed by the remaining input. -/
theorem batchedGo_flatten (size : Nat) (xs : List α) :
    ∀ batch : List α, (batchedGo size batch xs).flatten = batch ++ xs := by
  induction xs with
  | nil =>
    intro batch
    by_cases h : batch.isEmpty
    · simp [batchedGo, h, List.isEmpty_iff.mp h]
    · simp [batchedGo, h]
  | cons x xs ih =>
    intro batch
    by_cases h : size ≤ batch.length + 1
    · simp [batchedGo, h, ih]
    · simp [batchedGo, h, ih]

/-- The batched groups concatenate back to the input. -/
theorem batched_flatten (size : Nat) (xs : List α) :
    (batched size xs).flatten = xs := by
  simpa [batched] using batchedGo_flatten size xs []

/-- Every group produced from an accumulator shorter than `size` is non-empty
and no longer than `size`. -/
theorem batchedGo_mem_length (size : Nat) (xs : List α) :
    ∀ batch : List α, batch.length < size →
      ∀ g ∈ batchedGo size batch xs, 1 ≤ g.length ∧ g.length ≤ size := by
  induction xs with
  | nil =>
    intro batch hb g hg
    by_cases h : batch.isEmpty
    · simp [batchedGo, h] at hg
    · have hne : batch ≠ [] := fun hnil => h (by simp [hnil])
      simp [batchedGo, h] at hg
      subst hg
      exact ⟨List.length_pos.mpr hne, Nat.le_of_lt hb⟩
  | cons x xs ih =>
    intro batch hb g hg
    by_cases h : size ≤ (batch ++ [x]).length
    · simp only [batchedGo, if_pos h, List.mem_cons] at hg
      rcases hg with hg | hg
      · subst hg
        constructor
        · simp
        · simpa using Nat.succ_le_of_lt hb
      · exact ih [] (Nat.lt_of_le_of_lt (Nat.zero_le batch.length) hb) g hg
    · simp only [batchedGo, if_neg h] at hg
      exact ih (batch ++ [x]) (Nat.lt_of_not_le h) g hg

/-- Every group except possibly the last, produced from an accumulator shorter
than `size`, has length exactly `size`. -/
theorem batchedGo_dropLast_length (size : Nat) (xs : List α) :
    ∀ batch : List α, batch.length < size →
      ∀ g ∈ (batchedGo size batch xs).dropLast, g.length = size := by
  induction xs with
  | nil =>
    intro batch hb g hg
    by_cases h : batch.isEmpty <;> simp [batchedGo, h] at hg
  | cons x xs ih =>
    intro batch hb g hg
    by_cases h : size ≤ (batch ++ [x]).length
    · simp only [batchedGo, if_pos h] at hg
      rcases hrest : batchedGo size ([] : List α) xs with _ | ⟨b, bs⟩
      · simp [hrest] at hg
      · rw [hrest, List.dropLast_cons₂, List.mem_cons] at hg
        rcases hg with hg | hg
        · subst hg
          have h2 : (batch ++ [x]).length ≤ size := by
            simpa using Nat.succ_le_of_lt hb
          exact Nat.le_antisymm h2 h
        · rw [← hrest] at hg
          exact ih [] (Nat.lt_of_le_of_lt (Nat.zero_le batch.length) hb) g hg
    · simp only [batchedGo, if_neg h] at hg
      exact ih (batch ++ [x]) (Nat.lt_of_not_le h) g hg

/-- A `filterMap` whose function is an if-then-else between `some ∘ m` and
`none` is the `map` of the `filter`. -/
theorem filterMap_ite_eq_map_filter (p : β → Bool) (m : β → γ) (l : List β) :
    (l.filterMap fun f => if p f then some (m f) else none) =
      (l.filter p).map m := by
  induction l with
  | nil => rfl
  | cons a l ih =>
    by_cases h : p a <;> simp [List.filterMap_cons, List.filter_cons, h, ih]

/-- Normal form of the filesystem fetch: filter the concatenated walks, then
build one document per kept file. -/
theorem fsFetch_eq_filter_map (sid : String) (paths : List String)
    (includes excludes : List (String → Bool)) (walk : String → List FileEntry) :
    FileSystemDocumentSource.fetch ⟨sid, paths, includes, excludes⟩ walk =
      ((paths.flatMap walk).filter fun f =>
        matchesFilters includes excludes f.path).map (mkDocument sid) := by
  induction paths with
  | nil => rfl
  | cons p ps ih =>
    simp only [FileSystemDocumentSource.fetch, List.flatMap_cons, List.filter_append,
      List.map_append, filterMap_ite_eq_map_filter]
    simp only [FileSystemDocumentSource.fetch, filterMap_ite_eq_map_filter] at ih
    rw [ih]

/-- C1: the FileSystem source's fetch yields a Document for exactly those
walked files whose full path matches every include pattern (an empty include
set accepts vacuously) and matches no exclude pattern; each yielded Document
has `id` and `link` equal to the file's full path, `title` equal to the file's
base name, and `content` equal to the file's text. -/
theorem C1_filesystem_fetch (sid : String) (paths : List String)
    (includes excludes : List (String → Bool)) (walk : String → List FileEntry) :
    (FileSystemDocumentSource.fetch ⟨sid, paths, includes, excludes⟩ walk =
      ((paths.flatMap walk).filter fun f =>
        matchesFilters includes excludes f.path).map (mkDocument sid)) ∧
    (∀ d, d ∈ FileSystemDocumentSource.fetch ⟨sid, paths, includes, excludes⟩ walk ↔
      ∃ f, f ∈ paths.flatMap walk ∧
        (includes.all fun r => r f.path) = true ∧
        (excludes.all fun r => !(r f.path)) = true ∧
        d = { id := f.path, source := sid, title := f.fileName, link := f.path,
              content := f.content, metadata := [] }) ∧
    (∀ pth, matchesFilters [] excludes pth = excludes.all fun r => !(r pth)) := by
  refine ⟨fsFetch_eq_filter_map sid paths includes excludes walk, ?_, ?_⟩
  · intro d
    rw [fsFetch_eq_filter_map]
    simp only [List.mem_map, List.mem_filter, matchesFilters, Bool.and_eq_true, mkDocument]
    constructor
    · rintro ⟨f, ⟨hmem, hinc, hexc⟩, rfl⟩
      exact ⟨f, hmem, hinc, hexc, rfl⟩
    · rintro ⟨f, hmem, hinc, hexc, rfl⟩
      exact ⟨f, ⟨hmem, hinc, hexc⟩, rfl⟩
  · intro pth
    simp [matchesFilters]

/-- Witness for C1: one root whose walk holds a matching text file and a
non-matching file, one include pattern, no exclude pattern. -/
theorem C1_filesystem_fetch_witness :
    (FileSystemDocumentSource.fetch
        ⟨"source1", ["root"], [fun p => p.endsWith ".txt"], []⟩
        (fun _ => [⟨"root/file1.txt", "file1.txt", "content file1"⟩,
          ⟨"root/img.png", "img.png", "binary"⟩]) =
      ((["root"].flatMap fun _ =>
          [⟨"root/file1.txt", "file1.txt", "content file1"⟩,
            ⟨"root/img.png", "img.png", "binary"⟩]).filter fun f =>
        matchesFilters [fun p => p.endsWith ".txt"] [] f.path).map
        (mkDocument "source1")) ∧
    (∀ d, d ∈ FileSystemDocumentSource.fetch
        ⟨"source1", ["root"], [fun p => p.endsWith ".txt"], []⟩
        (fun _ => [⟨"root/file1.txt", "file1.txt", "content file1"⟩,
          ⟨"root/img.png", "img.png", "binary"⟩]) ↔
      ∃ f : FileEntry, f ∈ (["root"].flatMap fun _ =>
          ([⟨"root/file1.txt", "file1.txt", "content file1"⟩,
            ⟨"root/img.png", "img.png", "binary"⟩] : List FileEntry)) ∧
        ([fun p => p.endsWith ".txt"].all fun r => r f.path) = true ∧
        (([] : List (String → Bool)).all fun r => !(r f.path)) = true ∧
        d = { id := f.path, source := "source1", title := f.fileName,
              link := f.path, content := f.content, metadata := [] }) ∧
    (∀ pth, matchesFilters [] [] pth =
      ([] : List (String → Bool)).all fun r => !(r pth)) :=
  C1_filesystem_fetch "source1" ["root"] [fun p => p.endsWith ".txt"] []
    (fun _ => [⟨"root/file1.txt", "file1.txt", "content file1"⟩,
      ⟨"root/img.png", "img.png", "binary"⟩])

/-- C2: for a positive batch size `n`, concatenating the groups produced by
the batching operator reproduces the input exactly; every group except
possibly the last has length exactly `n`; every group (the last included) has
length in `[1, n]`; an empty input produces zero groups. -/
theorem C2_batched_spec (n : Nat) (hn : 0 < n) (xs : List α) :
    (batched n xs).flatten = xs ∧
    (∀ g ∈ (batched n xs).dropLast, g.length = n) ∧
    (∀ g ∈ batched n xs, 1 ≤ g.length ∧ g.length ≤ n) ∧
    batched n ([] : List α) = [] :=
  ⟨batchedGo_flatten n xs [],
   batchedGo_dropLast_length n xs [] hn,
   batchedGo_mem_length n xs [] hn,
   by simp [batched, batchedGo]⟩

/-- Witness for C2 at batch size 5 on the twelve-element input of the
repository's own unit test `stream_utils_batched_test`. -/
theorem C2_batched_spec_witness :
    (batched 5 [1, 2, 3, 4, 5, 6, 7, 8, 9, 10, 11, 12]).flatten =
      [1, 2, 3, 4, 5, 6, 7, 8, 9, 10, 11, 12] ∧
    (∀ g ∈ (batched 5 [1, 2, 3, 4, 5, 6, 7, 8, 9, 10, 11, 12]).dropLast, g.length = 5) ∧
    (∀ g ∈ batched 5 [1, 2, 3, 4, 5, 6, 7, 8, 9, 10, 11, 12], 1 ≤ g.length ∧ g.length ≤ 5) ∧
    batched 5 ([] : List Nat) = [] :=
  C2_batched_spec 5 (by decide) [1, 2, 3, 4, 5, 6, 7, 8, 9, 10, 11, 12]

/-- C10: at batch size 0 the batching operator emits each item as its own
group of size exactly 1, in order, because the flush condition
`batch.len() >= size` holds after every push. -/
theorem C10_batched_zero (xs : List α) :
    batched 0 xs = xs.map (fun x => [x]) ∧ ∀ g ∈ batched 0 xs, g.length = 1 := by
  have main : ∀ ys : List α, batchedGo 0 [] ys = ys.map fun x => [x] := by
    intro ys
    induction ys with
    | nil => rfl
    | cons y ys ih => simp [batchedGo, ih]
  refine ⟨main xs, ?_⟩
  intro g hg
  simp only [batched, main xs, List.mem_map] at hg
  obtain ⟨x, _, rfl⟩ := hg
  rfl

/-- Witness for C10 on a three-element input. -/
theorem C10_batched_zero_witness :
    batched 0 [1, 2, 3] = ([1, 2, 3] : List Nat).map (fun x => [x]) ∧
    ∀ g ∈ batched 0 ([1, 2, 3] : List Nat), g.length = 1 :=
  C10_batched_zero [1, 2, 3]

/-- C6 counterexample: with batch size 2, an error item in the source sequence
is accumulated into a group together with the item that preceded it, and a
further group is emitted after the group carrying the error — the batching
operator neither turns the error into a terminal item nor suppresses the
partially accumulated batch. -/
theorem C6_counterexample :
    batched 2 [Except.ok 1, Except.error (["boom"] : Err), Except.ok (2 : Nat)] =
      [[Except.ok 1, Except.error ["boom"]], [Except.ok 2]] := by
  rfl

/-- C6 (amended): the batching operator does not inspect items, so an error
item is grouped like any other item: concatenating the output groups
reproduces the whole input, error included in its original position, and when
items follow the error the output does not stop at the error. -/
theorem C6_amended (n : Nat) (hn : 0 < n) (pre post : List (Except Err α)) (e : Err) :
    (batched n (pre ++ Except.error e :: post)).flatten = pre ++ Except.error e :: post ∧
    (post ≠ [] →
      (batched n (pre ++ Except.error e :: post)).flatten ≠ pre ++ [Except.error e]) := by
  have hflat : (batched n (pre ++ Except.error e :: post)).flatten =
      pre ++ Except.error e :: post :=
    batchedGo_flatten n (pre ++ Except.error e :: post) []
  refine ⟨hflat, fun hpost heq => hpost ?_⟩
  have h1 : pre ++ Except.error e :: post = pre ++ [Except.error e] := by
    rw [← hflat, heq]
  simpa using List.append_cancel_left h1

/-- Witness for the amended C6 at batch size 2 with one item before and one
item after the error. -/
theorem C6_amended_witness :
    (batched 2 ([Except.ok 1] ++ Except.error (["boom"] : Err) :: [Except.ok (2 : Nat)])).flatten =
      [Except.ok 1] ++ Except.error ["boom"] :: [Except.ok 2] ∧
    ([Except.ok (2 : Nat)] ≠ ([] : List (Except Err Nat)) →
      (batched 2 ([Except.ok 1] ++
          Except.error (["boom"] : Err) :: [Except.ok (2 : Nat)])).flatten ≠
        [Except.ok 1] ++ [Except.error ["boom"]]) :=
  C6_amended 2 (by decide) [Except.ok 1] [Except.ok 2] ["boom"]

/-- The terminal result the `channel_stream` manager task observes from the
producer task (`src/utils/streams.rs` lines 22-32): the producer future
completed with `Ok`, completed with `Err`, or the spawned task itself failed
(abort or panic), carrying the join error's message. -/
inductive Outcome where
  | ok : Outcome
  | error : Err → Outcome
  | panicked : String → Outcome
deriving DecidableEq, Repr

/-- `channel_stream` (`src/utils/streams.rs` lines 7-43): the consumer of the
returned `ReceiverStream` observes every item the producer sent, in order, and
then — because the manager task first awaits the producer task's join handle
and only afterwards performs its single send — exactly one trailing error item
when the producer returned an error, exactly one trailing
`anyhow!("Stream panicked: {}")` item when the producer task panicked, and
nothing more when the producer succeeded. -/
def channel_stream (sent : List (Except Err R)) (result : Outcome) :
    List (Except Err R) :=
  sent ++
    match result with
    | Outcome.ok => []
    | Outcome.error e => [Except.error e]
    | Outcome.panicked msg => [Except.error ["Stream panicked: " ++ msg]]

/-- C3: if the producer emits `k` values and then returns a failure (or its
task panics), the consumer observes exactly those `k` values in emission
order, followed by exactly one error item, after which the sequence ends:
the observed sequence is literally the values followed by one error, and its
length is `k + 1`. -/
theorem C3_channel_stream_failure (values : List R) (e : Err) (msg : String) :
    channel_stream (values.map Except.ok) (Outcome.error e) =
      values.map Except.ok ++ [Except.error e] ∧
    channel_stream (values.map Except.ok) (Outcome.panicked msg) =
      values.map Except.ok ++ [Except.error ["Stream panicked: " ++ msg]] ∧
    (channel_stream (values.map Except.ok) (Outcome.error e)).length =
      values.length + 1 :=
  ⟨rfl, rfl, by simp [channel_stream]⟩

/-- Witness for C3: two emitted values, then an error (and the panic case). -/
theorem C3_channel_stream_failure_witness :
    channel_stream ([1, 2].map Except.ok) (Outcome.error ["fail"]) =
      [1, 2].map Except.ok ++ [Except.error ["fail"]] ∧
    channel_stream ([1, 2].map Except.ok) (Outcome.panicked "overflow") =
      [1, 2].map Except.ok ++ [Except.error ["Stream panicked: " ++ "overflow"]] ∧
    (channel_stream ([1, 2].map Except.ok) (Outcome.error ["fail"])).length =
      ([1, 2] : List Nat).length + 1 :=
  C3_channel_stream_failure [1, 2] ["fail"] "overflow"

/-- The `RepositoryInfo` descriptor from `src/sources/gh.rs` lines 170-176. -/
structure RepositoryInfo where
  name : String
  clone_url : String
deriving DecidableEq, Repr

/-- The `GithubSource` struct (`src/sources/gh.rs` lines 19-24), each regex
modelled by its `is_match` function. -/
structure GithubSource where
  source_id : String
  includes : List (String → Bool)
  excludes : List (String → Bool)

/-- The documents the Git-repository source re-emits for one successfully
cloned repository (`src/sources/gh.rs` lines 54-66): a filesystem source
rooted at the cloned temporary directory.  The code binds both of its local
variables from `self.include` — `let include = self.include.clone(); let
exclude = self.include.clone();` (`src/sources/gh.rs` lines 30-31) — so the
filesystem source receives the include set as its exclude set as well; the
embedding reproduces that faithfully. -/
def ghRepoDocs (g : GithubSource) (entries : List FileEntry) : List Document :=
  FileSystemDocumentSource.fetch
    ⟨g.source_id, ["cloned"], g.includes, g.includes⟩ (fun _ => entries)

/-- Producer loop of `GithubSource::fetch` (`src/sources/gh.rs` lines 34-68):
for each listed repository, a listing error or a clone failure makes the
producer return that error (the clone failure wrapped with the static context
"Error while cloning repository"); a successful clone re-emits the documents
of the cloned directory's walk and the loop continues.  `clone` models the
blocking clone task, returning the walk of the cloned temporary directory or
a clone error; the panic path of the clone task is not modelled. -/
def ghProducer (g : GithubSource)
    (clone : RepositoryInfo → Except Err (List FileEntry)) :
    List (Except Err RepositoryInfo) → List (Except Err Document) × Outcome
  | [] => ([], Outcome.ok)
  | Except.error e :: _ => ([], Outcome.error e)
  | Except.ok repo :: rest =>
    match clone repo with
    | Except.error e =>
      ([], Outcome.error (withContext "Error while cloning repository" e))
    | Except.ok entries =>
      let res := ghProducer g clone rest
      ((ghRepoDocs g entries).map Except.ok ++ res.1, res.2)

/-- `GithubSource::fetch` (`src/sources/gh.rs` lines 26-72): the producer run
through the channel stream bridge. -/
def GithubSource.fetch (g : GithubSource)
    (clone : RepositoryInfo → Except Err (List FileEntry))
    (repos : List (Except Err RepositoryInfo)) : List (Except Err Document) :=
  channel_stream (ghProducer g clone repos).1 (ghProducer g clone repos).2

/-- The configured exclude set never influences the Git source's producer. -/
theorem ghProducer_excludes_irrelevant (sid : String)
    (inc exc exc' : List (String → Bool))
    (clone : RepositoryInfo → Except Err (List FileEntry))
    (repos : List (Except Err RepositoryInfo)) :
    ghProducer ⟨sid, inc, exc⟩ clone repos =
      ghProducer ⟨sid, inc, exc'⟩ clone repos := by
  induction repos with
  | nil => rfl
  | cons r rest ih =>
    cases r with
    | error e => rfl
    | ok repo =>
      cases h : clone repo with
      | error e => simp [ghProducer, h]
      | ok entries => simp [ghProducer, h, ghRepoDocs, ih]

/-- C4: the claim fails on the code.  Because `GithubSource::fetch` binds its
local `exclude` from `self.include` (`src/sources/gh.rs` line 31), (a) the
configured exclude set never influences the fetched documents, and (b) with
the include set `[.* matching "cloned/a.md"]` and the empty exclude set, a
repository cloning to the single matching file `cloned/a.md` yields no
document at all, although the filesystem walk with the configured filters
(same includes, empty excludes) yields exactly that document. -/
theorem C4_exclude_bound_to_include :
    (∀ (sid : String) (inc exc exc' : List (String → Bool))
        (clone : RepositoryInfo → Except Err (List FileEntry))
        (repos : List (Except Err RepositoryInfo)),
      GithubSource.fetch ⟨sid, inc, exc⟩ clone repos =
        GithubSource.fetch ⟨sid, inc, exc'⟩ clone repos) ∧
    GithubSource.fetch ⟨"s", [fun p => p == "cloned/a.md"], []⟩
        (fun _ => Except.ok [⟨"cloned/a.md", "a.md", "hello"⟩])
        [Except.ok ⟨"docs", "https://example.com/docs.git"⟩] = [] ∧
    FileSystemDocumentSource.fetch
        ⟨"s", ["cloned"], [fun p => p == "cloned/a.md"], []⟩
        (fun _ => [⟨"cloned/a.md", "a.md", "hello"⟩]) =
      [{ id := "cloned/a.md", source := "s", title := "a.md",
         link := "cloned/a.md", content := "hello", metadata := [] }] := by
  refine ⟨?_, rfl, rfl⟩
  intro sid inc exc exc' clone repos
  unfold GithubSource.fetch
  rw [ghProducer_excludes_irrelevant sid inc exc exc']

/-- C5 counterexample: two runs of the Git source that differ only in which
repository fails to clone produce identical output sequences, so the error
item carried by the sequence cannot identify the failing repository — its
context is the fixed string "Error while cloning repository". -/
theorem C5_counterexample :
    (⟨"docs", "https://example.com/a.git"⟩ : RepositoryInfo) ≠
      ⟨"site", "https://example.com/b.git"⟩ ∧
    GithubSource.fetch ⟨"s", [], []⟩ (fun _ => Except.error ["network down"])
        [Except.ok ⟨"docs", "https://example.com/a.git"⟩] =
      GithubSource.fetch ⟨"s", [], []⟩ (fun _ => Except.error ["network down"])
        [Except.ok ⟨"site", "https://example.com/b.git"⟩] ∧
    GithubSource.fetch ⟨"s", [], []⟩ (fun _ => Except.error ["network down"])
        [Except.ok ⟨"docs", "https://example.com/a.git"⟩] =
      [Except.error ["Error while cloning repository", "network down"]] :=
  ⟨by decide, rfl, rfl⟩

/-- C5 (amended): if every repository in `good` clones successfully and `bad`
then fails to clone with error `e`, the source's sequence is exactly the
documents of the good repositories, in order, followed by a single terminal
error item whose outermost context is the static string "Error while cloning
repository" (which does not name the repository): the clone is not retried,
no document of the failing repository appears, and the documents emitted for
earlier repositories are all retained. -/
theorem C5_amended (g : GithubSource)
    (clone : RepositoryInfo → Except Err (List FileEntry))
    (walkOf : RepositoryInfo → List FileEntry)
    (good : List RepositoryInfo) (bad : RepositoryInfo) (e : Err)
    (hgood : ∀ r ∈ good, clone r = Except.ok (walkOf r))
    (hbad : clone bad = Except.error e) :
    GithubSource.fetch g clone (good.map Except.ok ++ [Except.ok bad]) =
      (good.flatMap fun r => (ghRepoDocs g (walkOf r)).map Except.ok) ++
        [Except.error (withContext "Error while cloning repository" e)] := by
  have hp : ∀ gs : List RepositoryInfo,
      (∀ r ∈ gs, clone r = Except.ok (walkOf r)) →
      ghProducer g clone (gs.map Except.ok ++ [Except.ok bad]) =
        ((gs.flatMap fun r => (ghRepoDocs g (walkOf r)).map Except.ok),
          Outcome.error (withContext "Error while cloning repository" e)) := by
    intro gs
    induction gs with
    | nil => intro _; simp [ghProducer, hbad]
    | cons r rs ih =>
      intro hgs
      have hr : clone r = Except.ok (walkOf r) := hgs r (List.mem_cons_self r rs)
      have ihr := ih fun x hx => hgs x (List.mem_cons_of_mem r hx)
      simp [ghProducer, hr, ihr, List.flatMap_cons]
  simp [GithubSource.fetch, hp good hgood, channel_stream]

/-- Witness for the amended C5: the repository "docs" clones successfully to
a one-file directory, then the repository "site" fails to clone. -/
theorem C5_amended_witness :
    GithubSource.fetch ⟨"s", [], []⟩
        (fun r => if r.name == "site" then Except.error ["network down"]
                  else Except.ok [⟨"cloned/a.md", "a.md", "hello"⟩])
        ([(⟨"docs", "https://example.com/a.git"⟩ : RepositoryInfo)].map Except.ok ++
          [Except.ok ⟨"site", "https://example.com/b.git"⟩]) =
      ([(⟨"docs", "https://example.com/a.git"⟩ : RepositoryInfo)].flatMap fun r =>
        (ghRepoDocs ⟨"s", [], []⟩
          ((fun _ => [⟨"cloned/a.md", "a.md", "hello"⟩]) r)).map Except.ok) ++
        [Except.error (withContext "Error while cloning repository" ["network down"])] :=
  C5_amended ⟨"s", [], []⟩
    (fun r => if r.name == "site" then Except.error ["network down"]
              else Except.ok [⟨"cloned/a.md", "a.md", "hello"⟩])
    (fun _ => [⟨"cloned/a.md", "a.md", "hello"⟩])
    [⟨"docs", "https://example.com/a.git"⟩]
    ⟨"site", "https://example.com/b.git"⟩
    ["network down"]
    (by intro r hr; rw [List.mem_singleton] at hr; subst hr; rfl)
    rfl

/-- `collect::<anyhow::Result<Vec<_>>>()` over one batch (`src/cli/mod.rs`
lines 49-52): the documents of the batch, or its first error. -/
def collectBatch : List (Except Err Document) → Except Err (List Document)
  | [] => Except.ok []
  | Except.error e :: _ => Except.error e
  | Except.ok d :: rest => (collectBatch rest).map fun ds => d :: ds

/-- Draining the batched stream of one source in the Index subcommand
(`src/cli/mod.rs` lines 48-56): each successfully collected batch is handed to
`SearchEngine::index`; the first batch containing an error aborts the drain
with that error wrapped with the static context "Error occurred while fetching
documents from source".  Returns the batches indexed before the abort and the
aborting error, if any. -/
def runSourceBatches : List (List (Except Err Document)) →
    List (List Document) × Option Err
  | [] => ([], none)
  | b :: rest =>
    match collectBatch b with
    | Except.error e =>
      ([], some (withContext "Error occurred while fetching documents from source" e))
    | Except.ok docs =>
      let res := runSourceBatches rest
      (docs :: res.1, res.2)

/-- The Index subcommand of `cli_main` (`src/cli/mod.rs` lines 42-57): the
configured sources are processed in order; each source's fetched item
sequence is batched with size 10 and drained; the first error aborts the
whole run (the `?` operator propagates it out of `cli_main`).  Each source is
modelled by the item sequence its fetch produces; the result is the list of
batches handed to `SearchEngine::index`, in order, plus the aborting error,
if any (`index` itself is modelled as infallible). -/
def indexCommand : List (List (Except Err Document)) →
    List (List Document) × Option Err
  | [] => ([], none)
  | s :: rest =>
    match runSourceBatches (batched 10 s) with
    | (done, some e) => (done, some e)
    | (done, none) =>
      let res := indexCommand rest
      (done ++ res.1, res.2)

/-- A batch containing an error item collects to an error. -/
theorem collectBatch_error_of_mem {e : Err} {b : List (Except Err Document)}
    (he : Except.error e ∈ b) : ∃ e', collectBatch b = Except.error e' := by
  induction b with
  | nil => simp at he
  | cons x rest ih =>
    cases x with
    | error e0 => exact ⟨e0, rfl⟩
    | ok d =>
      rcases List.mem_cons.mp he with h | h
      · simp at h
      · obtain ⟨e', he'⟩ := ih h
        exact ⟨e', by simp only [collectBatch, he']; rfl⟩

/-- A batch of only successful items collects to its documents. -/
theorem collectBatch_ok {b : List (Except Err Document)}
    (hb : ∀ x ∈ b, x.isOk = true) : ∃ ds, collectBatch b = Except.ok ds := by
  induction b with
  | nil => exact ⟨[], rfl⟩
  | cons x rest ih =>
    cases x with
    | error e0 =>
      have := hb (Except.error e0) (List.mem_cons_self ..)
      simp [Except.isOk, Except.toBool] at this
    | ok d =>
      obtain ⟨ds, hds⟩ := ih fun x hx => hb x (List.mem_cons_of_mem _ hx)
      exact ⟨d :: ds, by simp only [collectBatch, hds]; rfl⟩

/-- If every batch holds only successful items, the drain does not abort. -/
theorem runSourceBatches_snd_eq_none (bl : List (List (Except Err Document)))
    (h : ∀ b ∈ bl, ∀ x ∈ b, x.isOk = true) :
    (runSourceBatches bl).2 = none := by
  induction bl with
  | nil => rfl
  | cons b rest ih =>
    obtain ⟨ds, hds⟩ := collectBatch_ok (h b (List.mem_cons_self ..))
    simp only [runSourceBatches, hds]
    exact ih fun b' hb' => h b' (List.mem_cons_of_mem _ hb')

/-- If some batch holds an error item, the drain aborts with an error wrapped
with the static context message. -/
theorem runSourceBatches_snd_eq_some (bl : List (List (Except Err Document)))
    (h : ∃ b ∈ bl, ∃ e, Except.error e ∈ b) :
    ∃ e, (runSourceBatches bl).2 =
      some (withContext "Error occurred while fetching documents from source" e) := by
  induction bl with
  | nil => simp at h
  | cons b rest ih =>
    rcases hcb : collectBatch b with e0 | ds
    · exact ⟨e0, by simp [runSourceBatches, hcb]⟩
    · rcases h with ⟨b0, hb0, e, he⟩
      rcases List.mem_cons.mp hb0 with rfl | hb0r
      · obtain ⟨e', he'⟩ := collectBatch_error_of_mem he
        rw [hcb] at he'
        simp at he'
      · obtain ⟨e', he'⟩ := ih ⟨b0, hb0r, e, he⟩
        exact ⟨e', by simp [runSourceBatches, hcb, he']⟩

/-- Unfolding of `indexCommand` at a source whose drain aborts. -/
theorem indexCommand_cons_some (s : List (Except Err Document))
    (rest : List (List (Except Err Document))) (e0 : Err)
    (h : (runSourceBatches (batched 10 s)).2 = some e0) :
    indexCommand (s :: rest) = ((runSourceBatches (batched 10 s)).1, some e0) := by
  rcases hq : runSourceBatches (batched 10 s) with ⟨done, oerr⟩
  rw [hq] at h
  simp only at h
  subst h
  simp [indexCommand, hq]

/-- Unfolding of `indexCommand` at a source whose drain succeeds. -/
theorem indexCommand_cons_none (s : List (Except Err Document))
    (rest : List (List (Except Err Document)))
    (h : (runSourceBatches (batched 10 s)).2 = none) :
    indexCommand (s :: rest) =
      ((runSourceBatches (batched 10 s)).1 ++ (indexCommand rest).1,
        (indexCommand rest).2) := by
  rcases hq : runSourceBatches (batched 10 s) with ⟨done, oerr⟩
  rw [hq] at h
  simp only at h
  subst h
  simp [indexCommand, hq]

/-- Items of the batches of a source are items of the source. -/
theorem batched_all_ok (s : List (Except Err Document))
    (hs : ∀ x ∈ s, x.isOk = true) :
    ∀ b ∈ batched 10 s, ∀ x ∈ b, x.isOk = true := by
  intro b hb x hx
  have hm : x ∈ (batched 10 s).flatten := List.mem_flatten.mpr ⟨b, hb, hx⟩
  rw [batched_flatten] at hm
  exact hs x hm

/-- An error item of a source lies in one of its batches. -/
theorem batched_error_exists (s : List (Except Err Document)) (e : Err)
    (he : Except.error e ∈ s) :
    ∃ b ∈ batched 10 s, ∃ e', Except.error e' ∈ b := by
  have hm : Except.error e ∈ (batched 10 s).flatten := by
    rw [batched_flatten]
    exact he
  obtain ⟨b, hb, hxb⟩ := List.mem_flatten.mp hm
  exact ⟨b, hb, e, hxb⟩

/-- C7 counterexample: two configurations in which a different source fails —
in the first the failing source is the first and only one, in the second it
is the second of two — surface literally identical errors, so the wrapped
context (the fixed string "Error occurred while fetching documents from
source") does not identify the source that failed. -/
theorem C7_counterexample :
    (indexCommand [[Except.error ["io"]]]).2 =
      (indexCommand [[Except.ok ⟨"1", "s", "t", "l", "c", []⟩],
        [Except.error ["io"]]]).2 ∧
    (indexCommand [[Except.error ["io"]]]).2 =
      some ["Error occurred while fetching documents from source", "io"] :=
  ⟨rfl, rfl⟩

/-- C7 (amended): the first error item encountered while draining any batch
aborts the entire indexing run — the result does not depend on the sources
configured after the failing one (they are never processed), the indexed
batches are exactly those collected before the failure, and the surfaced
error is the aborting error wrapped with the static context string "Error
occurred while fetching documents from source" (which does not identify the
failing source). -/
theorem C7_amended (gsrcs : List (List (Except Err Document)))
    (bsrc : List (Except Err Document))
    (later later' : List (List (Except Err Document)))
    (hgood : ∀ s ∈ gsrcs, ∀ x ∈ s, x.isOk = true)
    (hbad : ∃ e, Except.error e ∈ bsrc) :
    indexCommand (gsrcs ++ bsrc :: later) = indexCommand (gsrcs ++ bsrc :: later') ∧
    ∃ e, indexCommand (gsrcs ++ bsrc :: later) =
      ((gsrcs.flatMap fun s => (runSourceBatches (batched 10 s)).1) ++
          (runSourceBatches (batched 10 bsrc)).1,
        some (withContext "Error occurred while fetching documents from source" e)) := by
  obtain ⟨e, he⟩ := hbad
  obtain ⟨e0, he0⟩ := runSourceBatches_snd_eq_some (batched 10 bsrc)
    (batched_error_exists bsrc e he)
  have main : ∀ gs : List (List (Except Err Document)),
      (∀ s ∈ gs, ∀ x ∈ s, x.isOk = true) →
      ∀ rest, indexCommand (gs ++ bsrc :: rest) =
        ((gs.flatMap fun s => (runSourceBatches (batched 10 s)).1) ++
            (runSourceBatches (batched 10 bsrc)).1,
          some (withContext "Error occurred while fetching documents from source" e0)) := by
    intro gs
    induction gs with
    | nil =>
      intro _ rest
      simp only [List.nil_append, List.flatMap_nil]
      rw [indexCommand_cons_some bsrc rest _ he0]
    | cons s ss ih =>
      intro hgs rest
      have hs := hgs s (List.mem_cons_self ..)
      have hnone := runSourceBatches_snd_eq_none (batched 10 s) (batched_all_ok s hs)
      have ihr := ih (fun s' hs' => hgs s' (List.mem_cons_of_mem _ hs')) rest
      simp only [List.cons_append]
      rw [indexCommand_cons_none s _ hnone, ihr]
      simp [List.flatMap_cons, List.append_assoc]
  exact ⟨(main gsrcs hgood later).trans (main gsrcs hgood later').symm,
    e0, main gsrcs hgood later⟩

/-- Witness for the amended C7: one error-free source, then a failing source,
and a trailing source that differs between the two runs. -/
theorem C7_amended_witness :
    indexCommand ([[Except.ok ⟨"1", "s1", "t1", "l1", "c1", []⟩]] ++
        [Except.error (["io"] : Err)] :: [[Except.ok ⟨"2", "s2", "t2", "l2", "c2", []⟩]]) =
      indexCommand ([[Except.ok ⟨"1", "s1", "t1", "l1", "c1", []⟩]] ++
        [Except.error (["io"] : Err)] :: []) ∧
    ∃ e, indexCommand ([[Except.ok ⟨"1", "s1", "t1", "l1", "c1", []⟩]] ++
        [Except.error (["io"] : Err)] :: [[Except.ok ⟨"2", "s2", "t2", "l2", "c2", []⟩]]) =
      (([[Except.ok (⟨"1", "s1", "t1", "l1", "c1", []⟩ : Document)]].flatMap fun s =>
          (runSourceBatches (batched 10 s)).1) ++
          (runSourceBatches (batched 10 [Except.error (["io"] : Err)])).1,
        some (withContext "Error occurred while fetching documents from source" e)) :=
  C7_amended [[Except.ok ⟨"1", "s1", "t1", "l1", "c1", []⟩]]
    [Except.error ["io"]]
    [[Except.ok ⟨"2", "s2", "t2", "l2", "c2", []⟩]] []
    (by decide)
    ⟨["io"], List.mem_singleton.mpr rfl⟩

/-- The stored tantivy fields retrieved for one search hit
(`src/search/tantivy_impl.rs`): the five text fields of the index schema. -/
structure TantivyStoredDoc where
  id : String
  title : String
  link : String
  content : String
  source : String
deriving DecidableEq, Repr

/-- `tantivy_doc_to_doks` (`src/search/tantivy_impl.rs` lines 136-162): each
search hit is converted into a full `Document` — the five stored text fields
are copied and `metadata` is empty.  No score and no snippet are computed. -/
def tantivy_doc_to_doks (t : TantivyStoredDoc) : Document :=
  { id := t.id
    source := t.source
    title := t.title
    link := t.link
    content := t.content
    metadata := [] }

/-- The items the blocking retrieval task of `TantivySearchEngine::search`
sends before its first per-hit failure (`src/search/tantivy_impl.rs` lines
122-127): only successfully retrieved and converted documents are sent; at
the first per-hit failure the closure returns `Err` without sending
anything. -/
def sentBeforeFailure : List (Except Err Document) → List (Except Err Document)
  | [] => []
  | Except.ok d :: rest => Except.ok d :: sentBeforeFailure rest
  | Except.error _ :: _ => []

/-- The sequence the consumer of `TantivySearchEngine::search` observes
(`src/search/tantivy_impl.rs` lines 104-133).  `topDocs` models the outcome
of `searcher.search` (which may fail as a whole) together with the per-hit
outcome of `searcher.doc` plus `tantivy_doc_to_doks`, in rank order.  The
spawned task's `JoinHandle` is dropped, so an `Err` returned by the closure is
discarded: nothing is sent for it and the channel simply closes.  The
consumer therefore observes the documents sent before the first failure, and
never an error item. -/
def tantivySearchTask (topDocs : Except Err (List (Except Err Document))) :
    List (Except Err Document) :=
  match topDocs with
  | Except.error _ => []
  | Except.ok hits => sentBeforeFailure hits

/-- `TantivySearchEngine::search` (`src/search/tantivy_impl.rs` lines
97-133): a query-parse failure is returned directly, before any sequence is
handed to the caller; otherwise the caller receives the sequence produced by
the background retrieval task. -/
def searchFacade (parse : Except Err Unit)
    (topDocs : Except Err (List (Except Err Document))) :
    Except Err (List (Except Err Document)) :=
  match parse with
  | Except.error e => Except.error e
  | Except.ok _ => Except.ok (tantivySearchTask topDocs)

/-- C8 counterexample: a per-hit retrieval failure occurring after one result
was already delivered is not converted into an in-band error item — the
returned sequence is just the one successful item, and no element of the
sequence is an error. -/
theorem C8_counterexample :
    searchFacade (Except.ok ())
        (Except.ok [Except.ok ⟨"1", "s", "t", "l", "c", []⟩,
          Except.error ["doc retrieval failed"]]) =
      Except.ok [Except.ok ⟨"1", "s", "t", "l", "c", []⟩] ∧
    ∀ x ∈ tantivySearchTask
        (Except.ok [Except.ok (⟨"1", "s", "t", "l", "c", []⟩ : Document),
          Except.error ["doc retrieval failed"]]), x.isOk = true :=
  ⟨rfl, by decide⟩

/-- C8 (amended): failures during query parsing (before any sequence is
returned) are surfaced as a direct error return; failures occurring inside
the background retrieval task after the sequence has been returned are NOT
delivered in-band — the task's error is discarded together with its dropped
join handle, and the sequence simply terminates after the items sent before
the failure, containing no error item at all. -/
theorem C8_amended (ds : List Document) (e : Err)
    (rest : List (Except Err Document)) :
    tantivySearchTask (Except.ok (ds.map Except.ok ++ Except.error e :: rest)) =
      ds.map Except.ok ∧
    (∀ x ∈ tantivySearchTask
        (Except.ok (ds.map Except.ok ++ Except.error e :: rest)), x.isOk = true) ∧
    tantivySearchTask (Except.error e) = [] ∧
    searchFacade (Except.error e) (Except.ok []) = Except.error e := by
  have main : sentBeforeFailure (ds.map Except.ok ++ Except.error e :: rest) =
      ds.map Except.ok := by
    induction ds with
    | nil => rfl
    | cons d ds ih => simp [sentBeforeFailure, ih]
  refine ⟨main, ?_, rfl, rfl⟩
  intro x hx
  have hx' : x ∈ ds.map Except.ok := by
    rw [show tantivySearchTask (Except.ok (ds.map Except.ok ++ Except.error e :: rest)) =
      ds.map Except.ok from main] at hx
    exact hx
  obtain ⟨d, _, rfl⟩ := List.mem_map.mp hx'
  rfl

/-- Witness for the amended C8: one successful hit, then a failing hit. -/
theorem C8_amended_witness :
    tantivySearchTask (Except.ok
        ([(⟨"1", "s", "t", "l", "c", []⟩ : Document)].map Except.ok ++
          Except.error ["boom"] :: [])) =
      [(⟨"1", "s", "t", "l", "c", []⟩ : Document)].map Except.ok ∧
    (∀ x ∈ tantivySearchTask (Except.ok
        ([(⟨"1", "s", "t", "l", "c", []⟩ : Document)].map Except.ok ++
          Except.error ["boom"] :: [])), x.isOk = true) ∧
    tantivySearchTask (Except.error ["boom"]) = [] ∧
    searchFacade (Except.error ["boom"]) (Except.ok []) = Except.error ["boom"] :=
  C8_amended [⟨"1", "s", "t", "l", "c", []⟩] ["boom"] []

/-- C9: the claim fails on the code.  Evaluating the search conversion at the
repository's own unit-test data: the hit for document 2 is delivered as the
full `Document` record produced by `tantivy_doc_to_doks` — with its complete
`content` field and empty `metadata` — and not as a FoundItem; no score and no
snippet are computed anywhere in the conversion. -/
theorem C9_search_emits_documents :
    tantivy_doc_to_doks
        ⟨"2", "Computer science", "link2", "Computer science content", "My source"⟩ =
      { id := "2", source := "My source", title := "Computer science",
        link := "link2", content := "Computer science content", metadata := [] } ∧
    searchFacade (Except.ok ())
        (Except.ok [Except.ok (tantivy_doc_to_doks
          ⟨"2", "Computer science", "link2", "Computer science content", "My source"⟩)]) =
      Except.ok [Except.ok
        { id := "2", source := "My source", title := "Computer science",
          link := "link2", content := "Computer science content",
          metadata := [] }] :=
  ⟨rfl, rfl⟩

end Doks
